import Mathlib

set_option maxHeartbeats 1000000

/-
Verification of the NicheExplorer topic-discovery services against their
specification.  The Python sources under services/py-genai, services/py-fetcher
and services/py-topics are shallowly embedded below: pure helpers become Lean
functions over String/List, machine floats that the verified claims use only at
exact values (cluster membership probabilities, embedding vectors) become ℚ,
fallible calls become Except/Option, and the external collaborators (LLM chain,
json.loads, the embedding provider, the arXiv HTTP API, sklearn-based title
generation) become explicit oracle parameters.  Strings are treated at ASCII
granularity, matching the ASCII inputs exercised here.
-/

/-- Embedding vectors (sequences of floats in the source) are modelled as lists of ℚ. -/
abbrev Vec := List ℚ

/-- Python regex word character (re **w** in the ASCII range): letter, digit or underscore. -/
def isWordChar (c : Char) : Bool := c.isAlphanum || c = '_'

/-- Split a character list into maximal runs of characters agreeing on a Boolean
class `p`; each run is tagged with its class.  Used to model regexes of the form
`\b...\b` over word/non-word characters. -/
def charRuns (p : Char → Bool) : List Char → List (Bool × List Char)
  | [] => []
  | c :: cs =>
    match charRuns p cs with
    | (b, run) :: ts =>
      if p c = b then (b, c :: run) :: ts
      else (p c, [c]) :: (b, run) :: ts
    | [] => [(p c, [c])]

/-- Python str.lower() restricted to ASCII. -/
def lowerStr (s : String) : String := String.mk (s.toList.map Char.toLower)

/-- Python str.strip() with no argument: remove whitespace from both ends. -/
def pyStrip (s : String) : String :=
  String.mk (((s.toList.dropWhile Char.isWhitespace).reverse.dropWhile Char.isWhitespace).reverse)

/-- Python str.strip(chars): remove any character of the set from both ends. -/
def pyStripSet (s : String) (cs : List Char) : String :=
  String.mk (((s.toList.dropWhile (cs.contains ·)).reverse.dropWhile (cs.contains ·)).reverse)

/-- Does the first list start with the second? -/
def listStarts : List Char → List Char → Bool
  | _, [] => true
  | [], _ :: _ => false
  | a :: as, b :: bs => a = b && listStarts as bs

/-- Python str.split(pat) for a non-empty pattern, on character lists: split at
the leftmost, non-overlapping occurrences.  Fuel-driven so that it reduces in
the kernel; fuel = length of the list always suffices since every step consumes
at least one character. -/
def splitOnCharsFuel (pat : List Char) : Nat → List Char → List Char → List (List Char)
  | 0, s, acc => [acc.reverse ++ s]
  | _ + 1, [], acc => [acc.reverse]
  | fuel + 1, c :: cs, acc =>
    if listStarts (c :: cs) pat then
      acc.reverse :: splitOnCharsFuel pat fuel (List.drop (pat.length - 1) cs) []
    else
      splitOnCharsFuel pat fuel cs (c :: acc)

def splitOnChars (pat s : List Char) : List (List Char) :=
  if pat = [] then [s] else splitOnCharsFuel pat s.length s []

/-- Python substring membership `pat in s` (for a non-empty pattern): splitting
on the pattern yields more than one part. -/
def strContains (s pat : String) : Bool :=
  (splitOnChars pat.toList s.toList).length != 1

/-- Python `s.split(pat)[-1]`: the part after the last occurrence of the pattern
(the whole string when the pattern does not occur). -/
def afterLastOcc (s pat : String) : String :=
  String.mk ((((splitOnChars pat.toList s.toList).getLast?).getD s.toList))

/- ===================================================================
   QueryGenerationService (services/py-genai/src/services/query_generation_service.py)
   =================================================================== -/

/-- Stop-word set of QueryGenerationService._extract_search_terms
(query_generation_service.py lines 93-105). -/
def extractStopWords : List String :=
  ["the", "and", "or", "in", "on", "at", "to", "for", "of", "with", "by"]

/-- re.findall(r"\b[a-zA-Z]{3,}\b", text.lower()) from _extract_search_terms
(line 106): the maximal word-character runs of the lowercased text that consist
solely of letters and have length at least 3, in encounter order.  (A run mixing
letters with digits or underscores has no internal word boundary, so the regex
cannot match inside it.) -/
def findAlphaWords (text : String) : List String :=
  ((((charRuns isWordChar ((lowerStr text).toList)).filter (fun p => p.1)).map
      (fun p => String.mk p.2)).filter
    (fun w => w.toList.all Char.isAlpha && decide (3 ≤ w.toList.length)))

/-- The meaningful words of _extract_search_terms (line 107): the found words
with stop words removed, still in encounter order. -/
def meaningfulWords (text : String) : List String :=
  (findAlphaWords text).filter (fun w => !(extractStopWords.contains w))

/-- QueryGenerationService._extract_search_terms (lines 92-108). -/
def extractSearchTerms (text : String) : String :=
  String.intercalate " " ((meaningfulWords text).take 5)

/-- QueryGenerationService.build_advanced_query (lines 23-29): empty-after-strip
search terms yield a category-only query; otherwise the extracted terms are
embedded in an all:"..."+AND+cat:... expression (even when extraction leaves
nothing, giving an empty quoted phrase). -/
def buildAdvancedQuery (searchTerms category : String) : String :=
  if pyStrip searchTerms = "" then "cat:" ++ category
  else "all:\"" ++ extractSearchTerms searchTerms ++ "\"+AND+cat:" ++ category

/- ===================================================================
   Arxiv query-builder router (services/py-genai/src/routers/arxiv.py)
   =================================================================== -/

/-- Python exceptions that the embedded handlers raise. -/
inductive PyExn where
  | httpExn (status : Nat) (detail : String)
  | typeErr (msg : String)
  deriving DecidableEq, Repr

/-- Python str(e) for the embedded exceptions (starlette renders an HTTPException
as "status: detail"). -/
def pyExnStr : PyExn → String
  | .httpExn st detail => toString st ++ ": " ++ detail
  | .typeErr msg => msg

/-- Body of the /query/build/{source} request (QueryBuilderRequest with its
optional filters object flattened). -/
structure QueryBuilderRequest where
  search_terms : String
  filterCategory : Option String
  filterSubreddit : Option String
  deriving DecidableEq, Repr

structure QueryBuilderResponse where
  query : String
  description : String
  source : String
  deriving DecidableEq, Repr

/-- The try-block of build_source_query (arxiv.py lines 18-40): route on the
lowercased source, defaulting missing/falsy filter fields, and raise an
HTTPException(400) for an unsupported source. -/
def buildSourceQueryBody (source : String) (req : QueryBuilderRequest) :
    Except PyExn QueryBuilderResponse :=
  if lowerStr source = "arxiv" then
    let category := match req.filterCategory with
      | some c => if c ≠ "" then c else "cs.CV"
      | none => "cs.CV"
    .ok ⟨buildAdvancedQuery req.search_terms category,
         "Advanced arXiv search for '" ++ req.search_terms ++ "' in category " ++ category,
         lowerStr source⟩
  else if lowerStr source = "reddit" then
    let subreddit := match req.filterSubreddit with
      | some s => if s ≠ "" then s else "MachineLearning"
      | none => "MachineLearning"
    .ok ⟨subreddit,
         "Reddit search in r/" ++ subreddit ++ " for '" ++ req.search_terms ++ "'",
         lowerStr source⟩
  else
    .error (.httpExn 400 ("Unsupported source: " ++ source))

/-- build_source_query (arxiv.py lines 12-43).  The handler wraps its whole body
in `try ... except Exception`, and fastapi.HTTPException derives from Exception,
so the 400 raised inside the try-block for an unsupported source is itself
caught and replaced by HTTPException(500, "Failed to build query: " + str(e)). -/
def buildSourceQueryRoute (source : String) (req : QueryBuilderRequest) :
    Except (Nat × String) QueryBuilderResponse :=
  match buildSourceQueryBody source req with
  | .ok r => .ok r
  | .error e => .error (500, "Failed to build query: " ++ pyExnStr e)

/- ===================================================================
   Article and Topic data model
   =================================================================== -/

/-- Article as the services exchange it (niche_explorer_models Article, the
fields this development uses). -/
structure Article where
  id : String
  title : String
  summary : Option String
  link : String
  source : String
  deriving DecidableEq, Repr

/-- Topic as built by the topic service (the per-call UUID id is fresh
randomness from the environment and carries no verified content, so it is left
out of the embedding). -/
structure Topic where
  title : String
  description : String
  article_count : Nat
  relevance : ℤ
  articles : List Article
  deriving DecidableEq, Repr

structure TopicDiscoveryRequest where
  query : String
  article_ids : List String
  articles : List Article
  min_cluster_size : Option Nat
  nr_topics : Option Nat
  deriving DecidableEq, Repr

structure TopicDiscoveryResponse where
  query : String
  topics : List Topic
  total_articles_processed : Nat
  deriving DecidableEq, Repr

/- ===================================================================
   Topic-discovery HTTP handler (services/py-topics/src/main.py)
   =================================================================== -/

/-- Keyword parameters accepted by TopicDiscoveryService.discover_topic
(topic_service.py lines 32-33): (self,) query, article_keys, articles,
min_cluster_size, n_components.  There is no **kwargs. -/
def discoverTopicParams : List String :=
  ["query", "article_keys", "articles", "min_cluster_size", "n_components"]

/-- Keyword arguments used at the call site in the discover_topics handler
(main.py lines 46-52). -/
def discoverTopicsCallKwargs : List String :=
  ["query", "article_keys", "articles", "min_cluster_size", "nr_topics"]

/-- The POST /api/v1/topics/discover handler (main.py lines 26-61).  Empty
article lists get HTTP 400.  Otherwise Python binds the call-site keyword
arguments against discover_topic's parameter list before any of the callee's
code (including its internal try/except) runs; a keyword that matches no
parameter raises TypeError at the call, which the handler's own
`except Exception` turns into HTTPException(500).  The service behaviour in
the well-bound case is abstracted as an oracle. -/
def discoverTopicsHandler (service : TopicDiscoveryRequest → TopicDiscoveryResponse)
    (req : TopicDiscoveryRequest) : Except (Nat × String) TopicDiscoveryResponse :=
  if req.articles = [] then
    .error (400, "Article list cannot be empty")
  else if discoverTopicsCallKwargs.all (fun k => discoverTopicParams.contains k) then
    .ok (service req)
  else
    .error (500, "Failed to discover topics: TypeError")

/- ===================================================================
   Classifier (services/py-genai/src/services/openweb_client.py and
   services/py-genai/src/routers/classification.py)
   =================================================================== -/

/-- JSON values as json.loads produces them (floats as ℚ). -/
inductive Json where
  | null
  | bool (b : Bool)
  | num (q : ℚ)
  | str (s : String)
  | arr (xs : List Json)
  | obj (kvs : List (String × Json))
  deriving Repr

/-- Python dict.get on a parsed JSON object (json.loads keeps the last value for
a duplicated key, hence the reversed lookup). -/
def jGet (kvs : List (String × Json)) (k : String) : Option Json :=
  kvs.reverse.lookup k

/-- Python truthiness of a JSON value. -/
def jTruthy : Json → Bool
  | .null => false
  | .bool b => b
  | .num q => q != 0
  | .str s => s != ""
  | .arr xs => !xs.isEmpty
  | .obj kvs => !kvs.isEmpty

/-- ClassifyResponse DTO (niche_explorer_models). -/
structure ClassifyResponse where
  source : String
  source_type : String
  suggested_category : String
  confidence : ℚ
  deriving DecidableEq, Repr

/-- The deterministic fallback of classify_source (openweb_client.py lines 169-178). -/
def fallbackClassifyResponse : ClassifyResponse :=
  ⟨"arxiv", "research", "cs.CV", 1/2⟩

/-- Markdown-fence stripping in classify_source (openweb_client.py lines 147-148):
only applied when the output starts with three backticks. -/
def stripFencesOf (output : String) : String :=
  if output.startsWith "```" then
    pyStrip (pyStripSet (pyStripSet (pyStrip output) "```json".toList) "```".toList)
  else output

/-- The effective category value of classify_source (line 154):
`data.get("feed") or data.get("suggested_category", "cs.CV")` on the parsed
object: the feed value if present and truthy, otherwise the suggested_category
value, defaulting to the string "cs.CV". -/
def effectiveCategoryJson (kvs : List (String × Json)) : Json :=
  match jGet kvs "feed" with
  | some v => if jTruthy v then v else (jGet kvs "suggested_category").getD (.str "cs.CV")
  | none => (jGet kvs "suggested_category").getD (.str "cs.CV")

/-- The shape expected by classify_source of the parsed LLM output: a JSON
object whose effective category value is a string (a non-object raises
AttributeError at data.get, a non-string category raises AttributeError at
.strip(); both land in the except-branch). -/
def classifierShapeOk : Json → Bool
  | .obj kvs =>
    match effectiveCategoryJson kvs with
    | .str _ => true
    | _ => false
  | _ => false

/-- The success path of classify_source on a parsed JSON value (lines 153-167).
Modelled from the spec: the ClassifyResponse DTO (generated
niche_explorer_models package, not under src) validates that `source` is a
string and `confidence` a number; a value of the wrong type raises a validation
error, which the surrounding except-branch turns into the fallback.  Everything
else mirrors openweb_client.py: cv / computer vision (case-insensitively,
stripped) canonicalise to cs.CV, source defaults to "arxiv", source_type is
research exactly for source "arxiv", confidence defaults to 0.8. -/
def classifyFromJson : Json → Option ClassifyResponse
  | .obj kvs =>
    match effectiveCategoryJson kvs with
    | .str s =>
      let cat := if lowerStr (pyStrip s) = "cv" || lowerStr (pyStrip s) = "computer vision"
        then "cs.CV" else s
      match (jGet kvs "source").getD (.str "arxiv") with
      | .str src =>
        match (jGet kvs "confidence").getD (.num (4/5)) with
        | .num conf =>
          some ⟨src, if src = "arxiv" then "research" else "community", cat, conf⟩
        | _ => none
      | _ => none
    | _ => none
  | _ => none

/-- The try-block of classify_source (openweb_client.py lines 141-167), with the
LLM chain invocation and json.loads as oracles: none means an exception was
raised somewhere in the block. -/
def classifySourceBody (parse : String → Option Json) (chainRes : Except Unit String) :
    Option ClassifyResponse :=
  match chainRes with
  | .error _ => none
  | .ok output =>
    match parse (stripFencesOf output) with
    | none => none
    | some j => classifyFromJson j

/-- OpenWebClient.classify_source (lines 140-178): the entire body runs under
`try ... except Exception`, so the function is total — any failure produces the
deterministic fallback instead of an exception reaching the caller. -/
def classifySource (parse : String → Option Json) (chainRes : Except Unit String) :
    ClassifyResponse :=
  (classifySourceBody parse chainRes).getD fallbackClassifyResponse

/-- Generic filler words removed by the /classify route
(classification.py line 23). -/
def genericWords : List String :=
  ["current", "latest", "recent", "research", "study", "studies", "trend",
   "trends", "paper", "papers", "growing", "growth"]

/-- re.sub of the generic-word alternation (wrapped in word boundaries, case
insensitive) with the empty string: every maximal word-character run whose
lowercase form is a generic word is deleted; all other characters survive. -/
def removeGenericWords (q : String) : String :=
  String.mk (((charRuns isWordChar q.toList).map (fun p =>
    if p.1 && genericWords.contains (String.mk (p.2.map Char.toLower)) then [] else p.2)).flatten)

/-- re.sub(r"\s+", " ", s): collapse every whitespace run to one space. -/
def collapseWs (s : String) : String :=
  String.mk (((charRuns Char.isWhitespace s.toList).map (fun p => if p.1 then [' '] else p.2)).flatten)

/-- The cleaned query of the /classify route (classification.py lines 23-25). -/
def cleanedQuery (q : String) : String := pyStrip (collapseWs (removeGenericWords q))

/-- Response shape the /classify route rebuilds (it constructs a fresh
ClassifyResponse without a confidence argument, classification.py lines 39-43). -/
structure RouteClassifyResponse where
  source : String
  source_type : String
  suggested_category : String
  deriving DecidableEq, Repr

/-- Observable outcome of one /classify request: which query string (if any)
was handed to classify_source — classify_source always invokes the LLM chain
(openweb_client.py line 144), so llmQuery = some q means exactly one LLM call
with q — together with the HTTP result. -/
structure ClassifyOutcome where
  llmQuery : Option String
  result : Except (Nat × String) RouteClassifyResponse
  deriving Repr

/-- classify_query (classification.py lines 14-43): reject queries that are
empty after trimming with HTTP 400 before any LLM contact; otherwise call
classify_source on the cleaned query, falling back to the original query when
cleaning left nothing (`cleaned_query or request.query`). -/
def classifyQueryRoute (parse : String → Option Json) (chainRes : Except Unit String)
    (q : String) : ClassifyOutcome :=
  if pyStrip q = "" then ⟨none, .error (400, "Query cannot be empty")⟩
  else
    let cleaned := cleanedQuery q
    let arg := if cleaned ≠ "" then cleaned else q
    let resp := classifySource parse chainRes
    ⟨some arg,
     .ok ⟨resp.source, if resp.source = "arxiv" then "research" else "community",
          resp.suggested_category⟩⟩

/- ===================================================================
   Article fetcher (services/py-fetcher/src/main.py)
   =================================================================== -/

structure ArticleFetchRequest where
  source : String
  query : Option String
  category : Option String
  limit : Option Nat
  deriving DecidableEq, Repr

structure ArticleFetchResponse where
  articles : List Article
  total_found : Nat
  source : String
  deriving DecidableEq, Repr

/-- Python `x or d` on an optional integer (0 and None are falsy). -/
def pyOrNat (x : Option Nat) (d : Nat) : Nat :=
  match x with
  | some n => if n = 0 then d else n
  | none => d

/-- Python truthiness of an optional string. -/
def optTruthy (o : Option String) : Bool :=
  match o with
  | some s => s != ""
  | none => false

/-- The arXiv search expression chosen by fetch_articles (main.py lines 36-40):
a truthy category containing cat: or all: is used as-is; otherwise a truthy
category becomes cat:<category>; otherwise the free-text query (possibly None)
is used. -/
def arxivSearchQuery (req : ArticleFetchRequest) : Option String :=
  match req.category with
  | some c =>
    if c ≠ "" then
      if strContains c "cat:" || strContains c "all:" then some c else some ("cat:" ++ c)
    else req.query
  | none => req.query

/-- The tier-2 guard of fetch_articles (main.py lines 50-52): the category is
truthy and contains cat: together with all: or AND. -/
def advCond : Option String → Bool
  | some c => c != "" && strContains c "cat:" && (strContains c "all:" || strContains c "AND")
  | none => false

/-- fetch_articles (main.py lines 20-83).  The arXiv and Reddit fetchers are
oracles, taking the search expression (None models Python passing None through)
and max_results.  The three-tier arXiv fallback: (1) the chosen expression;
(2) if that returned zero articles and the category is a truthy advanced
expression containing cat: and all:-or-AND, category-only with the part after
the last cat:; (3) if still zero and the free-text query is truthy, the
free-text query.  An unsupported source raises HTTPException(400) inside the
try-block, which the blanket except converts to a 500 (same pattern as the
query-builder route). -/
def fetchArticlesRoute (afetch : Option String → Nat → List Article)
    (rfetch : Option String → Nat → List Article) (req : ArticleFetchRequest) :
    Except (Nat × String) ArticleFetchResponse :=
  if req.source = "arxiv" then
    let maxResults := pyOrNat req.limit 50
    let a1 := afetch (arxivSearchQuery req) maxResults
    let a2 :=
      if a1.isEmpty && advCond req.category then
        afetch (some ("cat:" ++ afterLastOcc ((req.category).getD "") "cat:")) maxResults
      else a1
    let a3 := if a2.isEmpty && optTruthy req.query then afetch req.query maxResults else a2
    .ok ⟨a3, a3.length, req.source⟩
  else if req.source = "reddit" then
    let subreddit := if optTruthy req.category then req.category else req.query
    let articles := rfetch subreddit (pyOrNat req.limit 50)
    .ok ⟨articles, articles.length, req.source⟩
  else
    .error (500, "Failed to fetch articles: 400: Unsupported source: " ++ req.source)

/- ===================================================================
   Embedding cache (services/py-genai/src/services/embedding_service.py)
   =================================================================== -/

/-- Environment of EmbeddingService.embed_batch_with_cache: the vector-store
read (none = no row, or a NULL embedding; a failed read degrades to the
constant-none map) and the provider call self.embeddings_client.embed_documents
(error = raised exception). -/
structure EmbedEnv where
  cache : String → Option Vec
  gen : List String → Except Unit (List Vec)

/-- EmbeddingService._embed_batch (embedding_service.py lines 48-54): a provider
exception yields one empty vector per input text instead of propagating. -/
def embedBatchAux (env : EmbedEnv) (ts : List String) : List Vec :=
  match env.gen ts with
  | .ok vs => vs
  | .error _ => ts.map (fun _ => [])

/-- The partition loop of embed_batch_with_cache (lines 82-90) over the
(text, external_id) pairs: a cache hit fills its slot, a miss leaves a hole
and contributes its text to new_texts, in position order. -/
def splitHits (cache : String → Option Vec) : List (String × String) → List (Option Vec) × List String
  | [] => ([], [])
  | (t, i) :: rest =>
    let sr := splitHits cache rest
    match cache i with
    | some v => (some v :: sr.1, sr.2)
    | none => (none :: sr.1, t :: sr.2)

/-- Placement of the freshly generated vectors (lines 120-122): the holes are
filled in order by zip(new_ids, new_embeddings); if the provider returned fewer
vectors, the remaining holes stay None. -/
def fillHoles : List (Option Vec) → List Vec → List (Option Vec)
  | [], _ => []
  | some v :: slots, vs => some v :: fillHoles slots vs
  | none :: slots, [] => none :: fillHoles slots []
  | none :: slots, v :: vs => some v :: fillHoles slots vs

/-- The texts sent to the provider in one embed_batch_with_cache call
(new_texts, lines 82-90). -/
def newTextsOf (env : EmbedEnv) (texts ids : List String) : List String :=
  (splitHits env.cache (texts.zip ids)).2

/-- The slot list before generation (vectors with cached entries filled). -/
def cacheSlots (env : EmbedEnv) (texts ids : List String) : List (Option Vec) :=
  (splitHits env.cache (texts.zip ids)).1

structure EmbedResult where
  vectors : List (Option Vec)
  cachedCount : Nat

/-- EmbeddingService.embed_batch_with_cache (lines 56-124).  cached_count is
len(cached_map): the number of distinct input ids having a stored embedding
(the SQL read returns one row per primary key).  zip(texts, ids) truncates to
the shorter input while vectors keeps len(texts) slots, so excess slots remain
None. -/
def embedBatchWithCache (env : EmbedEnv) (texts ids : List String) : EmbedResult :=
  ⟨fillHoles (cacheSlots env texts ids) (embedBatchAux env (newTextsOf env texts ids)) ++
     List.replicate (texts.length - (texts.zip ids).length) none,
   (ids.dedup.filter (fun i => (env.cache i).isSome)).length⟩

/-- The rank of position i among the cache misses: how many positions before i
also missed the cache (this is the index of position i's text inside the
provider request). -/
def missRank (env : EmbedEnv) (texts ids : List String) (i : Nat) : Nat :=
  (((texts.zip ids).take i).filter (fun p => (env.cache p.2).isNone)).length

/- ===================================================================
   Topic engine (services/py-topics/src/services/topic_service.py)
   =================================================================== -/

/-- Floor of a rational, computed with integer floor-division so that it
reduces in the kernel. -/
def ratFloor (q : ℚ) : ℤ := Int.fdiv q.num q.den

/-- Python int() truncation on a rational (toward zero). -/
def pyIntTrunc (q : ℚ) : ℤ := if 0 ≤ q then ratFloor q else -ratFloor (-q)

/-- Python str.capitalize(): first character upper-cased, the rest lower-cased. -/
def pyCapitalizeChars : List Char → List Char
  | [] => []
  | c :: cs => c.toUpper :: cs.map Char.toLower

/-- TopicDiscoveryService._clean_topic_title (topic_service.py lines 402-406):
non word/space/hyphen characters become spaces, whitespace is collapsed and
stripped, words longer than one character are capitalized, and a title longer
than 50 characters is cut to its first 47 plus an ellipsis. -/
def cleanTopicTitle (title : String) : String :=
  let s1 := String.mk (title.toList.map
    (fun c => if isWordChar c || c.isWhitespace || c = '-' then c else ' '))
  let s2 := pyStrip (collapseWs s1)
  let words := ((charRuns Char.isWhitespace s2.toList).filter (fun p => !p.1)).map (fun p => p.2)
  let t := String.intercalate " "
    ((words.map (fun w => if w.length > 1 then pyCapitalizeChars w else w)).map String.mk)
  if t.toList.length > 50 then String.mk (t.toList.take 47) ++ "..." else t

/-- The deduplication key of _deduplicate_and_merge_topics (line 428):
the cleaned title, lower-cased. -/
def keyOf (t : Topic) : String := lowerStr (cleanTopicTitle t.title)

/-- One merge step of the title deduplication (lines 431-434): articles are
concatenated, the count recomputed from the stored list, the relevance is the
max; title and description stay those of the first-seen topic. -/
def mergeTopicInto (e t : Topic) : Topic :=
  { e with articles := e.articles ++ t.articles,
           article_count := (e.articles ++ t.articles).length,
           relevance := max e.relevance t.relevance }

/-- Folding a whole list of same-key topics into one. -/
def mergeMany (e : Topic) (ts : List Topic) : Topic := ts.foldl mergeTopicInto e

/-- One iteration of the dict-based deduplication loop (lines 426-436): an
existing entry for the key is merged in place, a new key is appended (Python
dicts preserve insertion order). -/
def dedupInsert (acc : List (String × Topic)) (t : Topic) : List (String × Topic) :=
  let k := keyOf t
  if (acc.lookup k).isSome then
    acc.map (fun p => if p.1 = k then (p.1, mergeTopicInto p.2 t) else p)
  else acc ++ [(k, t)]

/-- Step 1 of _deduplicate_and_merge_topics (lines 425-438). -/
def dedupByTitle (topics : List Topic) : List Topic :=
  (topics.foldl dedupInsert []).map Prod.snd

/-- Python max(large, key=article_count): index and value of the first topic
attaining the maximal article count. -/
def pickPrimary : List Topic → Option (Nat × Topic)
  | [] => none
  | t :: ts =>
    match pickPrimary ts with
    | none => some (0, t)
    | some (j, best) =>
      if best.article_count > t.article_count then some (j + 1, best) else some (0, t)

/-- The absorption loop of lines 446-449: the primary topic takes over the
articles of every small topic, recomputing count from the stored list and
keeping the maximal relevance. -/
def absorbSmall (primary : Topic) (smalls : List Topic) : Topic :=
  { primary with
    articles := primary.articles ++ (smalls.map (·.articles)).flatten,
    article_count := (primary.articles ++ (smalls.map (·.articles)).flatten).length,
    relevance := (smalls.map (·.relevance)).foldl max primary.relevance }

/-- TopicDiscoveryService._deduplicate_and_merge_topics (lines 420-452):
title-based deduplication, then, when both a small (count < max(2, mcs)) and a
large topic exist, every small topic is folded into the first largest one and
dropped from the list; the absorbed primary moves to the end. -/
def dedupMergeTopics (topics : List Topic) (mcs : Nat) : List Topic :=
  let deduped := dedupByTitle topics
  let bound := max 2 mcs
  let small := deduped.filter (fun t => t.article_count < bound)
  let large := deduped.filter (fun t => bound ≤ t.article_count)
  if !large.isEmpty && !small.isEmpty then
    match pickPrimary large with
    | some (j, primary) => large.eraseIdx j ++ [absorbSmall primary small]
    | none => deduped
  else deduped

/-- The descending, stable order of the final sort (line 198):
sort(key=(relevance, article_count), reverse=True). -/
def topicBefore (t u : Topic) : Bool :=
  t.relevance > u.relevance ||
    (t.relevance = u.relevance && t.article_count ≥ u.article_count)

/-- Stable insertion sort realizing Python list.sort(key=..., reverse=True):
an element is placed before the first element it is not strictly after, so
equal keys keep their original order. -/
def insertTopicDesc (t : Topic) : List Topic → List Topic
  | [] => [t]
  | u :: us => if topicBefore t u then t :: u :: us else u :: insertTopicDesc t us

def sortTopicsDesc (l : List Topic) : List Topic := l.foldr insertTopicDesc []

/-- The cluster-collection loop of discover_topic (lines 151-158): iterate
zip(articles, labels, probabilities), skip the noise label -1, and append the
article and its probability to the per-label cluster (dict insertion order =
first-appearance order of the labels). -/
def clusterInsert (acc : List (ℤ × List Article × List ℚ)) (x : Article × ℤ × ℚ) :
    List (ℤ × List Article × List ℚ) :=
  if x.2.1 = -1 then acc
  else if (acc.lookup x.2.1).isSome then
    acc.map (fun p => if p.1 = x.2.1 then (p.1, p.2.1 ++ [x.1], p.2.2 ++ [x.2.2]) else p)
  else acc ++ [(x.2.1, [x.1], [x.2.2])]

def groupClusters (xs : List (Article × ℤ × ℚ)) : List (ℤ × List Article × List ℚ) :=
  xs.foldl clusterInsert []

/-- Topic built from one cluster (lines 178-193): relevance = int(avg_conf*100),
article_count the full cluster size, articles truncated to 50.  The
title/description generator _generate_topic_info runs regex heuristics and an
sklearn TfidfVectorizer over the cluster articles; that external computation is
the titleGen oracle. -/
def mkClusterTopic (titleGen : List Article → String × String)
    (arts : List Article) (confs : List ℚ) : Topic :=
  ⟨(titleGen arts).1, (titleGen arts).2, arts.length,
   pyIntTrunc ((if confs.isEmpty then 0 else confs.sum / confs.length) * 100),
   arts.take 50⟩

/-- The no-cluster fallback topic (lines 166-175). -/
def fallbackMainTopic (query : String) (articles : List Article) : Topic :=
  ⟨"Main Topic: " ++ query, "Articles related to " ++ query,
   articles.length, 100, articles.take 50⟩

/-- The deterministic tail of discover_topic on the small-input KMeans path
(lines 131-204): for n ≤ 100 articles the cluster labels come from sklearn
KMeans (an oracle input here) and the code sets probabilities to np.ones, so
every collected confidence is 1; clusters are collected in first-appearance
order skipping -1, each becomes a Topic with relevance = int(avg_conf * 100),
the list is deduplicated and merged, then sorted by (relevance, article_count)
descending. -/
def discoverTopicsKMeansCore (titleGen : List Article → String × String)
    (query : String) (articles : List Article) (labels : List ℤ) (mcs : Nat) :
    TopicDiscoveryResponse :=
  let triples := (articles.zip labels).map (fun p => (p.1, p.2, (1 : ℚ)))
  let clusters := groupClusters triples
  let topics0 :=
    if clusters.isEmpty then [fallbackMainTopic query articles]
    else clusters.map (fun c => mkClusterTopic titleGen c.2.1 c.2.2)
  ⟨query, sortTopicsDesc (dedupMergeTopics topics0 mcs), articles.length⟩

/-- The relevance rule the spec claims (relative cluster size, Python round
half-to-even, clamped to [1, 100]); written from the claim text, for comparison
with the code's int(avg_conf * 100). -/
def pyRound (q : ℚ) : ℤ :=
  if q - ratFloor q < 1/2 then ratFloor q
  else if q - ratFloor q > 1/2 then ratFloor q + 1
  else if ratFloor q % 2 = 0 then ratFloor q else ratFloor q + 1

def specRelevance (count m : Nat) : ℤ :=
  min 100 (max 1 (pyRound ((100 * count : ℚ) / m)))

/-- A concrete eight-article input for the KMeans path (k = 2 for n = 8):
five articles about one subject, three about another. -/
def c2Articles : List Article :=
  [⟨"1", "Alpha", none, "", "arxiv"⟩, ⟨"2", "Alpha", none, "", "arxiv"⟩,
   ⟨"3", "Alpha", none, "", "arxiv"⟩, ⟨"4", "Alpha", none, "", "arxiv"⟩,
   ⟨"5", "Alpha", none, "", "arxiv"⟩, ⟨"6", "Beta", none, "", "arxiv"⟩,
   ⟨"7", "Beta", none, "", "arxiv"⟩, ⟨"8", "Beta", none, "", "arxiv"⟩]

/-- A concrete outcome of the title generator on the two clusters (the real
_generate_topic_info derives the title from the cluster members' words; here
the first member's title stands in). -/
def c2TitleGen : List Article → String × String :=
  fun arts => (((arts.head?).map (fun a => a.title)).getD "Unknown Topic", "d")

def c2Result : TopicDiscoveryResponse :=
  discoverTopicsKMeansCore c2TitleGen "q" c2Articles [0, 0, 0, 0, 0, 1, 1, 1] 2

/-- The in-place update function of dedupInsert's merge branch. -/
def updAt (k : String) (t : Topic) (p : String × Topic) : String × Topic :=
  if p.1 = k then (p.1, mergeTopicInto p.2 t) else p

/- ===================================================================
   Theorems for C8 (build_advanced_query)
   =================================================================== -/

/- ===================================================================
   Theorems for C7 (query-builder router) and C1 (topics handler)
   =================================================================== -/

/-- Claim C7: the spec, and the service's own unit test, require HTTP 400 for an
unsupported source, but the HTTPException(400) raised inside the try-block is
caught by the blanket `except Exception` and replaced by a 500.  Evaluating the
embedded handler at the failing input source="video" yields the 500. -/
theorem c7_unsupported_source_returns_500 :
    buildSourceQueryRoute "video" ⟨"test", none, none⟩ =
      .error (500, "Failed to build query: 400: Unsupported source: video") := rfl

/-- Claim C1: for every request with a non-empty article list the handler
returns HTTP 500, because the call-site keyword `nr_topics` matches no
parameter of discover_topic, so Python raises TypeError before discover_topic's
own exception handler can run, and the handler converts it to a 500.  The claim
(the call never throws and a DiscoveryResult is returned) fails for every such
request. -/
theorem c1_handler_raises_500 (service : TopicDiscoveryRequest → TopicDiscoveryResponse)
    (req : TopicDiscoveryRequest) (h : req.articles ≠ []) :
    discoverTopicsHandler service req = .error (500, "Failed to discover topics: TypeError") := by
  unfold discoverTopicsHandler
  rw [if_neg h, if_neg (by decide)]

/-- Witness for c1_handler_raises_500 at a concrete one-article request. -/
theorem c1_handler_raises_500_witness :
    discoverTopicsHandler (fun r => ⟨r.query, [], 0⟩)
      ⟨"ai", ["1"], [⟨"1", "Art 1", none, "http://a.com", "arxiv"⟩], none, none⟩ =
      .error (500, "Failed to discover topics: TypeError") :=
  c1_handler_raises_500 _ _ (by simp)

/-- Claim C8 (as stated) is false: on input made only of stop words the builder
does not return `cat:<category>`; `build_advanced_query("the", "cs.CV")`
returns `all:""+AND+cat:cs.CV`, an advanced query with an empty phrase. -/
theorem c8_counterexample :
    buildAdvancedQuery "the" "cs.CV" = "all:\"\"+AND+cat:cs.CV" ∧
    buildAdvancedQuery "the" "cs.CV" ≠ "cat:cs.CV" := by
  refine ⟨rfl, ?_⟩
  decide

/-- Claim C8 as amended: the builder returns `cat:<category>` exactly when the
search terms are empty after stripping whitespace; otherwise it always returns
`all:"<joined>"+AND+cat:<category>` where the joined terms are the first five
meaningful words — lowercased alphabetic words of length at least 3 that are
not stop words, in encounter order (possibly none, leaving an empty phrase). -/
theorem c8_build_advanced_query (terms cat : String) :
    buildAdvancedQuery terms cat =
      (if pyStrip terms = "" then "cat:" ++ cat
       else "all:\"" ++ String.intercalate " " ((meaningfulWords terms).take 5) ++
            "\"+AND+cat:" ++ cat) ∧
    ((meaningfulWords terms).take 5).length ≤ 5 ∧
    ((meaningfulWords terms).take 5).Sublist (findAlphaWords terms) ∧
    (∀ w ∈ (meaningfulWords terms).take 5,
      (∀ c ∈ w.toList, c.isAlpha) ∧ 3 ≤ w.toList.length ∧ w ∉ extractStopWords) := by
  refine ⟨rfl, ?_, ?_, ?_⟩
  · exact (List.length_take_le 5 _)
  · exact ((meaningfulWords terms).take_sublist 5).trans (List.filter_sublist _)
  · intro w hw
    have hw2 : w ∈ meaningfulWords terms := (List.take_subset 5 _) hw
    have hw3 : w ∈ findAlphaWords terms := (List.filter_sublist _).subset hw2
    have hstop : !(extractStopWords.contains w) := by
      have := List.of_mem_filter hw2
      simpa using this
    have hprop := List.of_mem_filter hw3
    simp only [Bool.and_eq_true, List.all_eq_true, decide_eq_true_eq] at hprop
    refine ⟨fun c hc => hprop.1 c hc, hprop.2, ?_⟩
    simpa using hstop

/- ===================================================================
   Theorems for C5 and C6 (classifier fallback, empty-query handling)
   =================================================================== -/

/-- Claim C5: whenever the LLM call fails, or its output does not parse as
JSON, or it parses to a value of the wrong shape (not an object, or with a
non-string effective category), classify_source returns the deterministic
fallback (arxiv, cs.CV, confidence 0.5).  classifySource is total by
construction, mirroring the blanket except-branch: no exception reaches the
caller. -/
theorem c5_classifier_fallback (parse : String → Option Json)
    (chainRes : Except Unit String)
    (h : chainRes = .error () ∨
      (∃ out, chainRes = .ok out ∧ parse (stripFencesOf out) = none) ∨
      (∃ out j, chainRes = .ok out ∧ parse (stripFencesOf out) = some j ∧
        classifierShapeOk j = false)) :
    classifySource parse chainRes = fallbackClassifyResponse := by
  rcases h with h | ⟨out, hout, hparse⟩ | ⟨out, j, hout, hparse, hshape⟩
  · rw [h]; rfl
  · rw [hout]
    simp only [classifySource, classifySourceBody, hparse, Option.getD]
  · rw [hout]
    simp only [classifySource, classifySourceBody, hparse]
    have : classifyFromJson j = none := by
      cases j with
      | obj kvs =>
        simp only [classifierShapeOk] at hshape
        simp only [classifyFromJson]
        cases hcat : effectiveCategoryJson kvs <;> simp_all
      | null => rfl
      | bool b => rfl
      | num q => rfl
      | str s => rfl
      | arr xs => rfl
    rw [this]
    rfl

/-- Witness for c5_classifier_fallback: the spec scenario S2 — the LLM returns
the non-JSON text "not json" (parser yields none) and the fallback is
produced. -/
theorem c5_classifier_fallback_witness :
    classifySource (fun _ => none) (.ok "not json") = fallbackClassifyResponse :=
  c5_classifier_fallback _ _ (Or.inr (Or.inl ⟨"not json", rfl, rfl⟩))

/-- Claim C6 (as stated) is false: the query "latest" is non-empty but becomes
empty after filler removal, yet the route does contact the LLM — it passes the
original query to classify_source instead of returning the fallback without an
LLM call. -/
theorem c6_counterexample :
    cleanedQuery "latest" = "" ∧
    (classifyQueryRoute (fun _ => none) (.error ()) "latest").llmQuery = some "latest" := by
  constructor
  · rfl
  · rfl

/-- Claim C6 as amended: a query that is already empty after trimming is
rejected with HTTP 400 and no LLM call is made; a query that becomes empty only
after filler removal is forwarded to classify_source — hence to the LLM — with
the original query text. -/
theorem c6_empty_query_routing (parse : String → Option Json)
    (chainRes : Except Unit String) (q : String) :
    (pyStrip q = "" →
      classifyQueryRoute parse chainRes q = ⟨none, .error (400, "Query cannot be empty")⟩) ∧
    (pyStrip q ≠ "" → cleanedQuery q = "" →
      (classifyQueryRoute parse chainRes q).llmQuery = some q) := by
  constructor
  · intro h
    simp [classifyQueryRoute, h]
  · intro h hc
    simp [classifyQueryRoute, h, hc]

/-- Witness for c6_empty_query_routing: the 400-branch at the all-whitespace
query and the original-query-forwarding branch at "latest". -/
theorem c6_empty_query_routing_witness :
    classifyQueryRoute (fun _ => none) (.error ()) "  " =
      ⟨none, .error (400, "Query cannot be empty")⟩ ∧
    (classifyQueryRoute (fun _ => none) (.error ()) "latest").llmQuery = some "latest" :=
  ⟨(c6_empty_query_routing (fun _ => none) (.error ()) "  ").1 rfl,
   (c6_empty_query_routing (fun _ => none) (.error ()) "latest").2 (by decide) rfl⟩

/-- Claim C9: with an advanced expression in the category field (truthy,
containing cat: and either all: or AND), the three fallback tiers run in order,
each only when the previous returned zero articles; tier 2 submits cat:<tok>
where <tok> is the part of the expression after its last cat:, and tier 3
submits the original free-text query (when truthy; with a falsy query the
empty tier-2 result is returned as an empty, non-error response). -/
theorem c9_arxiv_fallback_tiers (afetch rfetch : Option String → Nat → List Article)
    (req : ArticleFetchRequest) (c : String)
    (hsrc : req.source = "arxiv") (hcat : req.category = some c) (hc : c ≠ "")
    (hcontains : strContains c "cat:" = true)
    (hadv : strContains c "all:" = true ∨ strContains c "AND" = true) :
    (afetch (some c) (pyOrNat req.limit 50) ≠ [] →
      fetchArticlesRoute afetch rfetch req =
        .ok ⟨afetch (some c) (pyOrNat req.limit 50),
             (afetch (some c) (pyOrNat req.limit 50)).length, "arxiv"⟩) ∧
    (afetch (some c) (pyOrNat req.limit 50) = [] →
      afetch (some ("cat:" ++ afterLastOcc c "cat:")) (pyOrNat req.limit 50) ≠ [] →
      fetchArticlesRoute afetch rfetch req =
        .ok ⟨afetch (some ("cat:" ++ afterLastOcc c "cat:")) (pyOrNat req.limit 50),
             (afetch (some ("cat:" ++ afterLastOcc c "cat:")) (pyOrNat req.limit 50)).length,
             "arxiv"⟩) ∧
    (afetch (some c) (pyOrNat req.limit 50) = [] →
      afetch (some ("cat:" ++ afterLastOcc c "cat:")) (pyOrNat req.limit 50) = [] →
      ∀ q, req.query = some q → q ≠ "" →
      fetchArticlesRoute afetch rfetch req =
        .ok ⟨afetch (some q) (pyOrNat req.limit 50),
             (afetch (some q) (pyOrNat req.limit 50)).length, "arxiv"⟩) ∧
    (afetch (some c) (pyOrNat req.limit 50) = [] →
      afetch (some ("cat:" ++ afterLastOcc c "cat:")) (pyOrNat req.limit 50) = [] →
      optTruthy req.query = false →
      fetchArticlesRoute afetch rfetch req = .ok ⟨[], 0, "arxiv"⟩) := by
  have hsq : arxivSearchQuery req = some c := by
    simp [arxivSearchQuery, hcat, hc, hcontains]
  have hA : advCond (some c) = true := by
    rcases hadv with h | h <;> simp [advCond, hc, hcontains, h]
  refine ⟨?_, ?_, ?_, ?_⟩
  · intro h1
    obtain ⟨a, as, hcons⟩ := List.exists_cons_of_ne_nil h1
    simp [fetchArticlesRoute, hsrc, hsq, hcons]
  · intro h1 h2
    obtain ⟨a, as, hcons⟩ := List.exists_cons_of_ne_nil h2
    simp [fetchArticlesRoute, hsrc, hsq, hA, hcat, h1, hcons]
  · intro h1 h2 q hq hqne
    simp [fetchArticlesRoute, hsrc, hsq, hA, hcat, h1, h2, hq, optTruthy, hqne]
  · intro h1 h2 hq
    simp [fetchArticlesRoute, hsrc, hsq, hA, hcat, h1, h2, hq]

/-- Witness for c9_arxiv_fallback_tiers: tier 1 on the advanced expression
returns nothing, tier 2 queries exactly cat:cs.CV and returns two articles. -/
theorem c9_arxiv_fallback_tiers_witness :
    fetchArticlesRoute
      (fun sq _ => if sq = some "cat:cs.CV" then
          [⟨"1", "A", none, "http://a", "arxiv"⟩, ⟨"2", "B", none, "http://b", "arxiv"⟩]
        else [])
      (fun _ _ => [])
      ⟨"arxiv", some "xyz", some "all:\"xyz\"+AND+cat:cs.CV", none⟩ =
      .ok ⟨[⟨"1", "A", none, "http://a", "arxiv"⟩, ⟨"2", "B", none, "http://b", "arxiv"⟩],
           2, "arxiv"⟩ := by
  have h := c9_arxiv_fallback_tiers
    (fun sq _ => if sq = some "cat:cs.CV" then
        [⟨"1", "A", none, "http://a", "arxiv"⟩, ⟨"2", "B", none, "http://b", "arxiv"⟩]
      else [])
    (fun _ _ => [])
    ⟨"arxiv", some "xyz", some "all:\"xyz\"+AND+cat:cs.CV", none⟩
    "all:\"xyz\"+AND+cat:cs.CV" rfl rfl (by decide) (by decide) (Or.inl (by decide))
  exact h.2.1 (by decide) (by decide)

/- Helper lemmas about the partition and placement. -/

theorem splitHits_fst (cache : String → Option Vec) (l : List (String × String)) :
    (splitHits cache l).1 = l.map (fun p => cache p.2) := by
  induction l with
  | nil => rfl
  | cons p rest ih =>
    obtain ⟨t, i⟩ := p
    simp only [splitHits, List.map_cons]
    cases h : cache i <;> simp [h, ih]

theorem splitHits_snd (cache : String → Option Vec) (l : List (String × String)) :
    (splitHits cache l).2 = (l.filter (fun p => (cache p.2).isNone)).map Prod.fst := by
  induction l with
  | nil => rfl
  | cons p rest ih =>
    obtain ⟨t, i⟩ := p
    simp only [splitHits]
    cases h : cache i <;> simp [h, ih, List.filter_cons]

theorem fillHoles_length (slots : List (Option Vec)) (vs : List Vec) :
    (fillHoles slots vs).length = slots.length := by
  induction slots generalizing vs with
  | nil => rfl
  | cons o rest ih =>
    cases o with
    | some v => simp [fillHoles, ih]
    | none => cases vs <;> simp [fillHoles, ih]

theorem fillHoles_get_some (slots : List (Option Vec)) (vs : List Vec) (i : Nat) (v : Vec)
    (h : slots[i]? = some (some v)) : (fillHoles slots vs)[i]? = some (some v) := by
  induction slots generalizing vs i with
  | nil => simp at h
  | cons o rest ih =>
    cases i with
    | zero =>
      simp at h
      subst h
      cases vs <;> simp [fillHoles]
    | succ j =>
      simp only [List.getElem?_cons_succ] at h
      cases o with
      | some w => simpa [fillHoles] using ih vs j h
      | none => cases vs <;> simpa [fillHoles] using ih _ j h

theorem fillHoles_get_none (slots : List (Option Vec)) (vs : List Vec) (i : Nat)
    (h : slots[i]? = some none) :
    (fillHoles slots vs)[i]? = some (vs[((slots.take i).filter (fun o => o.isNone)).length]?) := by
  induction slots generalizing vs i with
  | nil => simp at h
  | cons o rest ih =>
    cases i with
    | zero =>
      simp at h
      subst h
      cases vs <;> simp [fillHoles]
    | succ j =>
      simp only [List.getElem?_cons_succ] at h
      cases o with
      | some w =>
        simpa [fillHoles, List.take_succ_cons, List.filter_cons] using ih vs j h
      | none =>
        cases vs with
        | nil => simpa [fillHoles, List.take_succ_cons, List.filter_cons] using ih [] j h
        | cons v vrest =>
          simpa [fillHoles, List.take_succ_cons, List.filter_cons] using ih vrest j h

theorem filter_rank_get {α : Type} (p : α → Bool) (l : List α) (i : Nat) (x : α)
    (hx : l[i]? = some x) (hpx : p x = true) :
    (l.filter p)[((l.take i).filter p).length]? = some x := by
  induction l generalizing i with
  | nil => simp at hx
  | cons a rest ih =>
    cases i with
    | zero =>
      simp at hx
      subst hx
      simp [List.filter_cons, hpx]
    | succ j =>
      simp only [List.getElem?_cons_succ] at hx
      by_cases hpa : p a = true
      · simpa [List.filter_cons, hpa, List.take_succ_cons] using ih j hx
      · simp only [Bool.not_eq_true] at hpa
        simpa [List.filter_cons, hpa, List.take_succ_cons] using ih j hx

theorem zip_get {α β : Type} (as : List α) (bs : List β) (i : Nat) (a : α) (b : β)
    (ha : as[i]? = some a) (hb : bs[i]? = some b) : (as.zip bs)[i]? = some (a, b) := by
  induction as generalizing bs i with
  | nil => simp at ha
  | cons x xs ih =>
    cases bs with
    | nil => simp at hb
    | cons y ys =>
      cases i with
      | zero => simp_all
      | succ j =>
        simp only [List.getElem?_cons_succ] at ha hb
        simpa [List.zip_cons_cons] using ih ys j ha hb

theorem ebwc_vectors_eq (env : EmbedEnv) (texts ids : List String)
    (hlen : texts.length = ids.length) :
    (embedBatchWithCache env texts ids).vectors =
      fillHoles (cacheSlots env texts ids) (embedBatchAux env (newTextsOf env texts ids)) := by
  have hz : (texts.zip ids).length = texts.length := by
    rw [List.length_zip, hlen, Nat.min_self]
  simp [embedBatchWithCache, hz]

theorem cacheSlots_get (env : EmbedEnv) (texts ids : List String) (i : Nat)
    (t i2 : String) (ht : texts[i]? = some t) (hi : ids[i]? = some i2) :
    (cacheSlots env texts ids)[i]? = some (env.cache i2) := by
  rw [cacheSlots, splitHits_fst, List.getElem?_map, zip_get _ _ _ _ _ ht hi]
  rfl

theorem cacheSlots_length (env : EmbedEnv) (texts ids : List String) :
    (cacheSlots env texts ids).length = (texts.zip ids).length := by
  rw [cacheSlots, splitHits_fst, List.length_map]

theorem missRank_eq_slotRank (env : EmbedEnv) (texts ids : List String) (i : Nat) :
    (((cacheSlots env texts ids).take i).filter (fun o => o.isNone)).length =
      missRank env texts ids i := by
  rw [cacheSlots, splitHits_fst, missRank, ← List.map_take, List.filter_map,
    List.length_map]
  rfl

/-- Claim C3 (as stated) is false: with the id "a" occurring at both positions
of an uncached batch, the text of id "a" appears twice in the provider request
(the partition loop collects one text per uncached position, with no
deduplication by id). -/
theorem c3_counterexample :
    newTextsOf ⟨fun _ => none, fun _ => .error ()⟩ ["x", "x"] ["a", "a"] = ["x", "x"] ∧
    (newTextsOf ⟨fun _ => none, fun _ => .error ()⟩ ["x", "x"] ["a", "a"]).count "x" = 2 := by
  constructor <;> rfl

/-- Claim C3 as amended: the provider is invoked in (at most) one batched call
per GetOrCompute, and its request holds exactly one text per input position
whose id missed the cache, in position order — so a duplicated uncached id
contributes its text once per occurrence, not once per distinct id; positions
whose id is cached contribute nothing. -/
theorem c3_provider_request_per_position (env : EmbedEnv) (texts ids : List String) :
    newTextsOf env texts ids =
      ((texts.zip ids).filter (fun p => (env.cache p.2).isNone)).map Prod.fst ∧
    (newTextsOf env texts ids).length =
      ((texts.zip ids).filter (fun p => (env.cache p.2).isNone)).length := by
  refine ⟨splitHits_snd _ _, ?_⟩
  rw [newTextsOf, splitHits_snd, List.length_map]

/-- Claim C4: with equally long inputs, a length-preserving provider that
returns non-empty vectors, and a store holding only non-empty vectors,
GetOrCompute returns one vector slot per input position; a cached id gets
exactly the stored vector; an uncached position i gets the provider vector
whose rank among the misses corresponds to texts[i] in the provider request;
a position is the empty vector exactly when its id missed the cache and the
provider batch failed. -/
theorem c4_embed_batch_alignment (env : EmbedEnv) (texts ids : List String)
    (hlen : texts.length = ids.length)
    (hgenlen : ∀ ts vs, env.gen ts = .ok vs → vs.length = ts.length)
    (hcachene : ∀ i v, env.cache i = some v → v ≠ [])
    (hgenne : ∀ ts vs, env.gen ts = .ok vs → ∀ v ∈ vs, v ≠ []) :
    (embedBatchWithCache env texts ids).vectors.length = texts.length ∧
    (∀ (i : Nat) (t i2 : String), texts[i]? = some t → ids[i]? = some i2 →
      (∀ v, env.cache i2 = some v →
        (embedBatchWithCache env texts ids).vectors[i]? = some (some v)) ∧
      (env.cache i2 = none →
        ∀ vs, env.gen (newTextsOf env texts ids) = .ok vs →
        ∃ w, vs[missRank env texts ids i]? = some w ∧
          (embedBatchWithCache env texts ids).vectors[i]? = some (some w) ∧
          (newTextsOf env texts ids)[missRank env texts ids i]? = some t) ∧
      (env.cache i2 = none → env.gen (newTextsOf env texts ids) = .error () →
        (embedBatchWithCache env texts ids).vectors[i]? = some (some []))) ∧
    (∀ i : Nat, (embedBatchWithCache env texts ids).vectors[i]? = some (some []) →
      env.gen (newTextsOf env texts ids) = .error ()) := by
  have hz : (texts.zip ids).length = texts.length := by
    rw [List.length_zip, hlen, Nat.min_self]
  have hvec := ebwc_vectors_eq env texts ids hlen
  have hvlen : (embedBatchWithCache env texts ids).vectors.length = texts.length := by
    rw [hvec, fillHoles_length, cacheSlots_length, hz]
  have hpos : ∀ (i : Nat) (t i2 : String), texts[i]? = some t → ids[i]? = some i2 →
      (∀ v, env.cache i2 = some v →
        (embedBatchWithCache env texts ids).vectors[i]? = some (some v)) ∧
      (env.cache i2 = none →
        ∀ vs, env.gen (newTextsOf env texts ids) = .ok vs →
        ∃ w, vs[missRank env texts ids i]? = some w ∧
          (embedBatchWithCache env texts ids).vectors[i]? = some (some w) ∧
          (newTextsOf env texts ids)[missRank env texts ids i]? = some t) ∧
      (env.cache i2 = none → env.gen (newTextsOf env texts ids) = .error () →
        (embedBatchWithCache env texts ids).vectors[i]? = some (some [])) := by
    intro i t i2 ht hi
    have hslot := cacheSlots_get env texts ids i t i2 ht hi
    have hpair : (texts.zip ids)[i]? = some (t, i2) := zip_get _ _ _ _ _ ht hi
    refine ⟨?_, ?_, ?_⟩
    · intro v hv
      rw [hv] at hslot
      rw [hvec]
      exact fillHoles_get_some _ _ _ _ hslot
    · intro hmiss vs hok
      have hrank : ((texts.zip ids).filter
          (fun p => (env.cache p.2).isNone))[missRank env texts ids i]? = some (t, i2) := by
        exact filter_rank_get _ _ _ _ hpair (by simp [hmiss])
      have hnt : (newTextsOf env texts ids)[missRank env texts ids i]? = some t := by
        rw [newTextsOf, splitHits_snd, List.getElem?_map, hrank]
        rfl
      have hrlt : missRank env texts ids i < (newTextsOf env texts ids).length := by
        by_contra hge
        rw [List.getElem?_eq_none (Nat.le_of_not_lt hge)] at hnt
        exact Option.noConfusion hnt
      have hvslt : missRank env texts ids i < vs.length := by
        rw [hgenlen _ _ hok]
        exact hrlt
      refine ⟨vs[missRank env texts ids i], List.getElem?_eq_getElem hvslt, ?_, hnt⟩
      rw [hmiss] at hslot
      rw [hvec]
      have := fillHoles_get_none (cacheSlots env texts ids)
        (embedBatchAux env (newTextsOf env texts ids)) i hslot
      rw [missRank_eq_slotRank] at this
      rw [this]
      have : embedBatchAux env (newTextsOf env texts ids) = vs := by
        rw [embedBatchAux, hok]
      rw [this, List.getElem?_eq_getElem hvslt]
    · intro hmiss herr
      have hrank : ((texts.zip ids).filter
          (fun p => (env.cache p.2).isNone))[missRank env texts ids i]? = some (t, i2) := by
        exact filter_rank_get _ _ _ _ hpair (by simp [hmiss])
      have hnt : (newTextsOf env texts ids)[missRank env texts ids i]? = some t := by
        rw [newTextsOf, splitHits_snd, List.getElem?_map, hrank]
        rfl
      have hrlt : missRank env texts ids i < (newTextsOf env texts ids).length := by
        by_contra hge
        rw [List.getElem?_eq_none (Nat.le_of_not_lt hge)] at hnt
        exact Option.noConfusion hnt
      rw [hmiss] at hslot
      rw [hvec]
      have hfill := fillHoles_get_none (cacheSlots env texts ids)
        (embedBatchAux env (newTextsOf env texts ids)) i hslot
      rw [missRank_eq_slotRank] at hfill
      rw [hfill]
      have hemb : embedBatchAux env (newTextsOf env texts ids) =
          (newTextsOf env texts ids).map (fun _ => ([] : Vec)) := by
        rw [embedBatchAux, herr]
      rw [hemb, List.getElem?_map]
      rw [List.getElem?_eq_getElem hrlt]
      rfl
  refine ⟨hvlen, hpos, ?_⟩
  · intro i hi
    have hilt : i < texts.length := by
      by_contra hge
      rw [List.getElem?_eq_none
        (show (embedBatchWithCache env texts ids).vectors.length ≤ i by
          rw [hvlen]; exact Nat.le_of_not_lt hge)] at hi
      exact Option.noConfusion hi
    have ht : ∃ t, texts[i]? = some t :=
      ⟨texts[i], List.getElem?_eq_getElem hilt⟩
    have hilt2 : i < ids.length := hlen ▸ hilt
    have hid : ∃ i2, ids[i]? = some i2 :=
      ⟨ids[i], List.getElem?_eq_getElem hilt2⟩
    obtain ⟨t, ht⟩ := ht
    obtain ⟨i2, hid⟩ := hid
    obtain ⟨hhit, hmissok, hmisserr⟩ := hpos i t i2 ht hid
    cases hcache : env.cache i2 with
    | some v =>
      have := hhit v hcache
      rw [this] at hi
      have hv : v = [] := by
        injection hi with hi2
        injection hi2
      exact absurd hv (hcachene _ _ hcache)
    | none =>
      cases hgen : env.gen (newTextsOf env texts ids) with
      | error e => cases e; rfl
      | ok vs =>
        obtain ⟨w, hw, hres, -⟩ := hmissok hcache vs hgen
        rw [hres] at hi
        have hweq : w = [] := by
          injection hi with hi2
          injection hi2
        have hwmem : w ∈ vs := by
          have := List.getElem?_eq_some_iff.mp hw
          obtain ⟨hlt, hget⟩ := this
          rw [← hget]
          exact List.getElem_mem hlt
        exact absurd hweq (hgenne _ _ hgen w hwmem)

/-- Witness for c4_embed_batch_alignment: the spec scenario S4 — id "a" is
cached with [1,2], id "c" misses; position 0 is served the stored vector. -/
theorem c4_embed_batch_alignment_witness :
    (embedBatchWithCache
      ⟨fun i => if i = "a" then some [1, 2] else none,
       fun ts => .ok (ts.map (fun t => if t = "z" then [5, 6] else [9]))⟩
      ["x", "z"] ["a", "c"]).vectors[0]? = some (some [1, 2]) :=
  ((c4_embed_batch_alignment
    ⟨fun i => if i = "a" then some [1, 2] else none,
     fun ts => .ok (ts.map (fun t => if t = "z" then [5, 6] else [9]))⟩
    ["x", "z"] ["a", "c"] rfl
    (by intro ts vs hv; injection hv with hv2; rw [← hv2, List.length_map])
    (by
      intro i v hv
      by_cases hia : i = "a"
      · rw [hia] at hv
        simp only [if_pos rfl] at hv
        injection hv with hv2
        rw [← hv2]
        simp
      · simp only [if_neg hia] at hv
        exact Option.noConfusion hv)
    (by
      intro ts vs hv w hw
      injection hv with hv2
      rw [← hv2] at hw
      simp only [List.mem_map] at hw
      obtain ⟨t, -, hft⟩ := hw
      by_cases htz : t = "z"
      · rw [if_pos htz] at hft
        rw [← hft]
        simp
      · rw [if_neg htz] at hft
        rw [← hft]
        simp)).2.1 0 "x" "a" rfl rfl).1 [1, 2] (by simp)

/-- Witness for c8_build_advanced_query at a concrete input, instantiating the
per-word property conjunct at the word "neural". -/
theorem c8_build_advanced_query_witness :
    (∀ c ∈ "neural".toList, c.isAlpha) ∧ 3 ≤ "neural".toList.length ∧
      "neural" ∉ extractStopWords :=
  (c8_build_advanced_query "the neural" "cs.CV").2.2.2 "neural" (by decide)

/- Helper lemmas for the topic-engine proofs. -/

theorem pickPrimary_mem (l : List Topic) (j : Nat) (t : Topic)
    (h : pickPrimary l = some (j, t)) : t ∈ l := by
  induction l generalizing j t with
  | nil => simp [pickPrimary] at h
  | cons a as ih =>
    rw [pickPrimary] at h
    split at h
    · injection h with h2
      injection h2 with h3 h4
      subst h4
      exact List.mem_cons_self a as
    next j2 best heq =>
      split at h
      · injection h with h2
        injection h2 with h3 h4
        exact List.mem_cons_of_mem a (h4 ▸ ih j2 best heq)
      · injection h with h2
        injection h2 with h3 h4
        subst h4
        exact List.mem_cons_self a as

theorem mem_insertTopicDesc (t u : Topic) (l : List Topic) :
    t ∈ insertTopicDesc u l ↔ t = u ∨ t ∈ l := by
  induction l with
  | nil => simp [insertTopicDesc]
  | cons a as ih =>
    simp only [insertTopicDesc]
    by_cases hb : topicBefore u a
    · simp [hb]
    · rw [if_neg hb]
      simp only [List.mem_cons, ih]
      tauto

theorem mem_sortTopicsDesc (t : Topic) (l : List Topic) :
    t ∈ sortTopicsDesc l ↔ t ∈ l := by
  induction l with
  | nil => simp [sortTopicsDesc]
  | cons a as ih =>
    simp only [sortTopicsDesc, List.foldr_cons] at ih ⊢
    rw [mem_insertTopicDesc]
    simp [ih]

theorem foldl_max_of_all_eq (rs : List ℤ) (m : ℤ) (h : ∀ r ∈ rs, r = m) :
    rs.foldl max m = m := by
  induction rs with
  | nil => rfl
  | cons r rest ih =>
    have hr : r = m := h r (List.mem_cons_self r rest)
    simp only [List.foldl_cons, hr, max_self]
    exact ih (fun x hx => h x (List.mem_cons_of_mem r hx))

theorem groupClusters_go_conf (xs : List (Article × ℤ × ℚ))
    (acc : List (ℤ × List Article × List ℚ))
    (hx : ∀ x ∈ xs, x.2.2 = 1)
    (hacc : ∀ c ∈ acc, c.2.2 ≠ [] ∧ ∀ q ∈ c.2.2, q = 1) :
    ∀ c ∈ xs.foldl clusterInsert acc, c.2.2 ≠ [] ∧ ∀ q ∈ c.2.2, q = 1 := by
  induction xs generalizing acc with
  | nil => exact hacc
  | cons x rest ih =>
    simp only [List.foldl_cons]
    refine ih _ (fun y hy => hx y (List.mem_cons_of_mem x hy)) ?_
    have hx1 : x.2.2 = 1 := hx x (List.mem_cons_self x rest)
    intro c hc
    simp only [clusterInsert] at hc
    by_cases hnoise : x.2.1 = -1
    · rw [if_pos hnoise] at hc
      exact hacc c hc
    · rw [if_neg hnoise] at hc
      by_cases hl : (acc.lookup x.2.1).isSome
      · rw [if_pos hl] at hc
        simp only [List.mem_map] at hc
        obtain ⟨p, hp, hpe⟩ := hc
        by_cases hk : p.1 = x.2.1
        · rw [if_pos hk] at hpe
          obtain ⟨hne, hall⟩ := hacc p hp
          rw [← hpe]
          constructor
          · simp
          · intro q hq
            simp only [List.mem_append, List.mem_singleton] at hq
            rcases hq with hq | hq
            · exact hall q hq
            · rw [hq, hx1]
        · rw [if_neg hk] at hpe
          exact hpe ▸ hacc p hp
      · rw [if_neg hl] at hc
        simp only [List.mem_append, List.mem_singleton] at hc
        rcases hc with hc | hc
        · exact hacc c hc
        · rw [hc]
          exact ⟨by simp, by simp [hx1]⟩

theorem groupClusters_conf (xs : List (Article × ℤ × ℚ)) (hx : ∀ x ∈ xs, x.2.2 = 1) :
    ∀ c ∈ groupClusters xs, c.2.2 ≠ [] ∧ ∀ q ∈ c.2.2, q = 1 :=
  groupClusters_go_conf xs [] hx (by simp)

theorem avg_of_ones (confs : List ℚ) (hne : confs ≠ []) (hall : ∀ q ∈ confs, q = 1) :
    pyIntTrunc ((if confs.isEmpty then 0 else confs.sum / confs.length) * 100) = 100 := by
  have hsum : confs.sum = (confs.length : ℚ) := by
    rw [List.sum_eq_card_nsmul confs 1 hall]
    simp
  have hlen : (confs.length : ℚ) ≠ 0 := by
    have h0 : confs.length ≠ 0 := fun h0 => hne (List.length_eq_zero.mp h0)
    simpa using h0
  have hemp : confs.isEmpty = false := by
    simpa [List.isEmpty_iff] using hne
  rw [hemp]
  simp only [Bool.false_eq_true, if_false]
  rw [hsum, div_self hlen, one_mul]
  decide

theorem dedupByTitle_go_rel (topics : List Topic) (acc : List (String × Topic)) (m : ℤ)
    (ht : ∀ t ∈ topics, t.relevance = m)
    (hacc : ∀ p ∈ acc, p.2.relevance = m) :
    ∀ p ∈ topics.foldl dedupInsert acc, p.2.relevance = m := by
  induction topics generalizing acc with
  | nil => exact hacc
  | cons t rest ih =>
    simp only [List.foldl_cons]
    refine ih _ (fun u hu => ht u (List.mem_cons_of_mem t hu)) ?_
    have htm : t.relevance = m := ht t (List.mem_cons_self t rest)
    intro p hp
    simp only [dedupInsert] at hp
    by_cases hl : ((acc.lookup (keyOf t)).isSome : Prop)
    · rw [if_pos hl] at hp
      simp only [List.mem_map] at hp
      obtain ⟨q, hq, hqe⟩ := hp
      by_cases hk : q.1 = keyOf t
      · rw [if_pos hk] at hqe
        rw [← hqe]
        simp only [mergeTopicInto]
        rw [hacc q hq, htm, max_self]
      · rw [if_neg hk] at hqe
        exact hqe ▸ hacc q hq
    · rw [if_neg hl] at hp
      simp only [List.mem_append, List.mem_singleton] at hp
      rcases hp with hp | hp
      · exact hacc p hp
      · rw [hp, htm]

theorem dedupMergeTopics_rel (topics : List Topic) (mcs : Nat) (m : ℤ)
    (ht : ∀ t ∈ topics, t.relevance = m) :
    ∀ t ∈ dedupMergeTopics topics mcs, t.relevance = m := by
  have hded : ∀ t ∈ dedupByTitle topics, t.relevance = m := by
    intro t hmem
    simp only [dedupByTitle, List.mem_map] at hmem
    obtain ⟨p, hp, hpe⟩ := hmem
    exact hpe ▸ dedupByTitle_go_rel topics [] m ht (by simp) p hp
  intro t hmem
  simp only [dedupMergeTopics] at hmem
  split at hmem
  · split at hmem
    next j primary hpick =>
      simp only [List.mem_append, List.mem_singleton] at hmem
      rcases hmem with hmem | hmem
      · exact hded t (List.mem_filter.mp (List.eraseIdx_subset _ _ hmem)).1
      · have hprim : primary ∈ dedupByTitle topics :=
          (List.mem_filter.mp (pickPrimary_mem _ _ _ hpick)).1
        rw [hmem]
        simp only [absorbSmall]
        rw [hded primary hprim]
        apply foldl_max_of_all_eq
        intro r hr
        simp only [List.mem_map] at hr
        obtain ⟨u, hu, hue⟩ := hr
        exact hue ▸ hded u (List.mem_filter.mp hu).1
    next => exact hded t hmem
  · exact hded t hmem

/-- Claim C2 as amended: the code computes relevance as int(100 · average
cluster-membership confidence) (merging keeps the maximum); on the n ≤ 100
KMeans path every confidence is set to 1 (np.ones), so every topic of such a
result has relevance exactly 100 — several topics share relevance 100 and the
relative-size rule round(100·articleCount/M) is not what the code computes. -/
theorem c2_relevance_is_confidence_based (titleGen : List Article → String × String)
    (query : String) (articles : List Article) (labels : List ℤ) (mcs : Nat) :
    ∀ t ∈ (discoverTopicsKMeansCore titleGen query articles labels mcs).topics,
      t.relevance = 100 := by
  intro t ht
  simp only [discoverTopicsKMeansCore] at ht
  rw [mem_sortTopicsDesc] at ht
  refine dedupMergeTopics_rel _ mcs 100 ?_ t ht
  intro u hu
  by_cases hcl : (groupClusters ((articles.zip labels).map (fun p => (p.1, p.2, (1 : ℚ))))).isEmpty
  · rw [if_pos hcl] at hu
    simp only [List.mem_singleton] at hu
    rw [hu]
    rfl
  · rw [if_neg hcl] at hu
    simp only [List.mem_map] at hu
    obtain ⟨c, hc, hce⟩ := hu
    have hconf := groupClusters_conf ((articles.zip labels).map (fun p => (p.1, p.2, (1 : ℚ))))
      (by intro x hx; simp only [List.mem_map] at hx; obtain ⟨p, -, hpe⟩ := hx; rw [← hpe])
      c hc
    rw [← hce]
    simp only [mkClusterTopic]
    exact avg_of_ones c.2.2 hconf.1 hconf.2

/-- Claim C2 (as stated) is false: on this engine run both topics get
relevance 100 = int(avg_conf·100) (counts 5 and 3), while the claimed
relative-size rule demands round(100·3/5) = 60 for the smaller topic and
exactly one topic with relevance 100. -/
theorem c2_counterexample :
    (c2Result.topics.map (fun t => (t.relevance, t.article_count))) = [(100, 5), (100, 3)] ∧
    specRelevance 3 5 = 60 ∧
    (c2Result.topics.filter (fun t => t.relevance = 100)).length = 2 := by
  have hones5 : ∀ q ∈ ([1, 1, 1, 1, 1] : List ℚ), q = 1 := by decide
  have hones3 : ∀ q ∈ ([1, 1, 1] : List ℚ), q = 1 := by decide
  have h5 : mkClusterTopic c2TitleGen (c2Articles.take 5) [1, 1, 1, 1, 1] =
      ⟨"Alpha", "d", 5, 100, c2Articles.take 5⟩ := by
    unfold mkClusterTopic
    rw [avg_of_ones [1, 1, 1, 1, 1] (by decide) hones5]
    decide
  have h3 : mkClusterTopic c2TitleGen (c2Articles.drop 5) [1, 1, 1] =
      ⟨"Beta", "d", 3, 100, c2Articles.drop 5⟩ := by
    unfold mkClusterTopic
    rw [avg_of_ones [1, 1, 1] (by decide) hones3]
    decide
  have hcl : groupClusters ((c2Articles.zip [0, 0, 0, 0, 0, 1, 1, 1]).map
      (fun p => (p.1, p.2, (1 : ℚ)))) =
      [(0, c2Articles.take 5, [1, 1, 1, 1, 1]), (1, c2Articles.drop 5, [1, 1, 1])] := by
    decide
  have hres : c2Result = ⟨"q",
      [⟨"Alpha", "d", 5, 100, c2Articles.take 5⟩, ⟨"Beta", "d", 3, 100, c2Articles.drop 5⟩],
      8⟩ := by
    unfold c2Result discoverTopicsKMeansCore
    simp only [hcl, List.map_cons, List.map_nil, List.isEmpty_cons, Bool.false_eq_true,
      if_false, h5, h3]
    decide
  rw [hres]
  refine ⟨by decide, ?_, by decide⟩
  have hval : (100 * ((3 : ℕ) : ℚ)) / ((5 : ℕ) : ℚ) = 60 := by norm_num
  unfold specRelevance pyRound
  rw [hval]
  have hf60 : ratFloor (60 : ℚ) = 60 := by decide
  rw [hf60]
  rw [if_pos (by norm_num : (60 : ℚ) - ((60 : ℤ) : ℚ) < 1 / 2)]
  omega

/-- Witness for c2_relevance_is_confidence_based: a run whose only label is
noise produces the single fallback topic, whose relevance is 100. -/
theorem c2_relevance_is_confidence_based_witness :
    (fallbackMainTopic "q" [⟨"1", "A", none, "", "arxiv"⟩]).relevance = 100 :=
  c2_relevance_is_confidence_based c2TitleGen "q" [⟨"1", "A", none, "", "arxiv"⟩] [-1] 2
    (fallbackMainTopic "q" [⟨"1", "A", none, "", "arxiv"⟩]) (by decide)

/- Lemmas about mergeMany, the fold of the title merge over one key class. -/

theorem keyOf_mergeTopicInto (e t : Topic) : keyOf (mergeTopicInto e t) = keyOf e := rfl

theorem mergeMany_cons (e t : Topic) (ts : List Topic) :
    mergeMany e (t :: ts) = mergeMany (mergeTopicInto e t) ts := rfl

theorem mergeMany_title (e : Topic) (ts : List Topic) : (mergeMany e ts).title = e.title := by
  induction ts generalizing e with
  | nil => rfl
  | cons t rest ih => rw [mergeMany_cons, ih]; rfl

theorem mergeMany_articles (e : Topic) (ts : List Topic) :
    (mergeMany e ts).articles = e.articles ++ (ts.map (fun u => u.articles)).flatten := by
  induction ts generalizing e with
  | nil => simp [mergeMany]
  | cons t rest ih =>
    rw [mergeMany_cons, ih]
    simp [mergeTopicInto]

theorem mergeMany_count (e : Topic) (ts : List Topic) (h : ts ≠ []) :
    (mergeMany e ts).article_count = (mergeMany e ts).articles.length := by
  induction ts generalizing e with
  | nil => exact absurd rfl h
  | cons t rest ih =>
    rw [mergeMany_cons]
    cases hr : rest with
    | nil => simp [mergeMany, mergeTopicInto]
    | cons r rs => exact hr ▸ ih (mergeTopicInto e t) (by simp [hr])

theorem mergeMany_rel (e : Topic) (ts : List Topic) :
    (mergeMany e ts).relevance = (ts.map (fun u => u.relevance)).foldl max e.relevance := by
  induction ts generalizing e with
  | nil => rfl
  | cons t rest ih =>
    rw [mergeMany_cons, ih]
    rfl

theorem foldl_max_init_le (l : List ℤ) (b : ℤ) : b ≤ l.foldl max b := by
  induction l generalizing b with
  | nil => exact le_refl b
  | cons x xs ih => exact le_trans (le_max_left b x) (ih (max b x))

theorem foldl_max_mem_le (l : List ℤ) (b x : ℤ) (hx : x ∈ l) : x ≤ l.foldl max b := by
  induction l generalizing b with
  | nil => simp at hx
  | cons y ys ih =>
    rcases List.mem_cons.mp hx with h | h
    · subst h
      rw [List.foldl_cons]
      exact le_trans (le_max_right b x) (foldl_max_init_le ys (max b x))
    · rw [List.foldl_cons]
      exact ih (max b y) h

theorem foldl_max_attained (l : List ℤ) (b : ℤ) :
    l.foldl max b = b ∨ l.foldl max b ∈ l := by
  induction l generalizing b with
  | nil => exact Or.inl rfl
  | cons x xs ih =>
    rcases ih (max b x) with h | h
    · rcases max_choice b x with hm | hm
      · exact Or.inl (by rw [List.foldl_cons, h, hm])
      · exact Or.inr (by rw [List.foldl_cons, h, hm]; exact List.mem_cons_self x xs)
    · exact Or.inr (List.mem_cons_of_mem x h)

/- Lemmas about the key-indexed accumulator of the deduplication fold. -/

theorem lookup_none_of_filter_nil (acc : List (String × Topic)) (k : String)
    (h : acc.filter (fun p => p.1 = k) = []) : acc.lookup k = none := by
  induction acc with
  | nil => rfl
  | cons p rest ih =>
    rw [List.filter_cons] at h
    by_cases hk : p.1 = k
    · simp [hk] at h
    · simp only [hk, decide_eq_false_iff_not, if_neg, Bool.false_eq_true] at h
      rw [List.lookup_cons]
      have : (k == p.1) = false := by
        simp [BEq.beq]
        exact fun he => hk he.symm
      rw [this]
      exact ih (by simpa using h)

theorem lookup_some_of_filter_single (acc : List (String × Topic)) (k : String) (e : Topic)
    (h : acc.filter (fun p => p.1 = k) = [(k, e)]) : acc.lookup k = some e := by
  induction acc with
  | nil => simp at h
  | cons p rest ih =>
    rw [List.filter_cons] at h
    by_cases hk : p.1 = k
    · simp only [hk, decide_eq_true_eq, if_pos] at h
      injection h with h1 h2
      rw [List.lookup_cons]
      have : (k == p.1) = true := by simp [BEq.beq, hk]
      rw [this]
      rw [h1]
    · simp only [hk, decide_eq_false_iff_not, Bool.false_eq_true, if_neg] at h
      rw [List.lookup_cons]
      have : (k == p.1) = false := by
        simp [BEq.beq]
        exact fun he => hk he.symm
      rw [this]
      exact ih h

theorem updAt_fst (k : String) (t : Topic) (p : String × Topic) : (updAt k t p).1 = p.1 := by
  unfold updAt
  split <;> rfl

theorem keys_map_updAt (acc : List (String × Topic)) (k : String) (t : Topic) :
    (acc.map (updAt k t)).map Prod.fst = acc.map Prod.fst := by
  rw [List.map_map]
  exact List.map_congr_left (fun p _ => updAt_fst k t p)

theorem filter_map_updAt_other (acc : List (String × Topic)) (k2 : String) (t : Topic)
    (k : String) (h : k2 ≠ k) :
    (acc.map (updAt k2 t)).filter (fun p => p.1 = k) = acc.filter (fun p => p.1 = k) := by
  induction acc with
  | nil => rfl
  | cons p rest ih =>
    rw [List.map_cons, List.filter_cons, List.filter_cons]
    by_cases hp : p.1 = k
    · have hup : updAt k2 t p = p := by
        unfold updAt
        rw [if_neg (by rw [hp]; exact fun he => h he.symm)]
      rw [hup, hp]
      simp only [decide_eq_true_eq, if_pos]
      rw [ih]
    · rw [updAt_fst]
      simp only [hp, decide_eq_false_iff_not, Bool.false_eq_true, if_neg, not_false_iff]
      exact ih

theorem filter_map_updAt_nil (acc : List (String × Topic)) (k : String) (t : Topic)
    (h : acc.filter (fun p => p.1 = k) = []) :
    (acc.map (updAt k t)).filter (fun p => p.1 = k) = [] := by
  induction acc with
  | nil => rfl
  | cons p rest ih =>
    rw [List.filter_cons] at h
    rw [List.map_cons, List.filter_cons, updAt_fst]
    by_cases hp : p.1 = k
    · simp [hp] at h
    · simp only [hp, decide_eq_false_iff_not, Bool.false_eq_true, if_neg, not_false_iff] at h ⊢
      exact ih h

theorem filter_map_updAt_self (acc : List (String × Topic)) (k : String) (t e : Topic)
    (h : acc.filter (fun p => p.1 = k) = [(k, e)]) :
    (acc.map (updAt k t)).filter (fun p => p.1 = k) = [(k, mergeTopicInto e t)] := by
  induction acc with
  | nil => simp at h
  | cons p rest ih =>
    rw [List.filter_cons] at h
    rw [List.map_cons, List.filter_cons, updAt_fst]
    by_cases hp : p.1 = k
    · simp only [hp, decide_eq_true_eq, if_pos] at h ⊢
      injection h with h1 h2
      have hpk : p = (k, e) := h1
      rw [hpk]
      have : updAt k t (k, e) = (k, mergeTopicInto e t) := by
        unfold updAt
        rw [if_pos rfl]
      rw [this]
      rw [filter_map_updAt_nil rest k t h2]
    · simp only [hp, decide_eq_false_iff_not, Bool.false_eq_true, if_neg, not_false_iff] at h ⊢
      exact ih h

theorem lookup_none_key_notin (acc : List (String × Topic)) (k : String)
    (h : acc.lookup k = none) : k ∉ acc.map Prod.fst := by
  induction acc with
  | nil => simp
  | cons p rest ih =>
    rw [List.lookup_cons] at h
    by_cases hk : k = p.1
    · rw [show (k == p.1) = true by simp [BEq.beq, hk]] at h
      exact Option.noConfusion h
    · rw [show (k == p.1) = false by simp [BEq.beq, hk]] at h
      simp only [List.map_cons, List.mem_cons]
      rintro (he | he)
      · exact hk he
      · exact ih h he

theorem dedupInsert_eq_map (acc : List (String × Topic)) (t : Topic)
    (h : (acc.lookup (keyOf t)).isSome) :
    dedupInsert acc t = acc.map (updAt (keyOf t) t) := by
  unfold dedupInsert updAt
  rw [if_pos h]

theorem dedupInsert_eq_append (acc : List (String × Topic)) (t : Topic)
    (h : acc.lookup (keyOf t) = none) :
    dedupInsert acc t = acc ++ [(keyOf t, t)] := by
  unfold dedupInsert
  rw [if_neg (by rw [h]; exact Bool.false_ne_true)]

theorem dedupFold_keys (topics : List Topic) :
    ∀ acc, (∀ p ∈ acc, p.1 = keyOf p.2) →
    ∀ p ∈ topics.foldl dedupInsert acc, p.1 = keyOf p.2 := by
  induction topics with
  | nil => exact fun acc h => h
  | cons t rest ih =>
    intro acc hacc
    rw [List.foldl_cons]
    refine ih _ ?_
    cases hl : acc.lookup (keyOf t) with
    | some e =>
      rw [dedupInsert_eq_map acc t (by rw [hl]; rfl)]
      intro p hp
      rw [List.mem_map] at hp
      obtain ⟨q, hq, hqe⟩ := hp
      rw [← hqe]
      unfold updAt
      split
      · rw [keyOf_mergeTopicInto]
        exact hacc q hq
      · exact hacc q hq
    | none =>
      rw [dedupInsert_eq_append acc t hl]
      intro p hp
      rcases List.mem_append.mp hp with hp | hp
      · exact hacc p hp
      · rw [List.mem_singleton] at hp
        rw [hp]

theorem dedupFold_nodup (topics : List Topic) :
    ∀ acc, ((acc.map Prod.fst).Nodup) →
    (((topics.foldl dedupInsert acc).map Prod.fst).Nodup) := by
  induction topics with
  | nil => exact fun acc h => h
  | cons t rest ih =>
    intro acc hacc
    rw [List.foldl_cons]
    refine ih _ ?_
    cases hl : acc.lookup (keyOf t) with
    | some e =>
      rw [dedupInsert_eq_map acc t (by rw [hl]; rfl), keys_map_updAt]
      exact hacc
    | none =>
      rw [dedupInsert_eq_append acc t hl, List.map_append]
      rw [List.nodup_append]
      exact ⟨hacc, List.nodup_singleton _,
        fun a ha hb => by
          rw [List.map_singleton, List.mem_singleton] at hb
          rw [hb] at ha
          exact lookup_none_key_notin acc (keyOf t) hl ha⟩

theorem dedupFold_filter_present (k : String) (topics : List Topic) :
    ∀ (acc : List (String × Topic)) (e : Topic),
    acc.filter (fun p => p.1 = k) = [(k, e)] →
    (topics.foldl dedupInsert acc).filter (fun p => p.1 = k) =
      [(k, mergeMany e (topics.filter (fun u => keyOf u = k)))] := by
  induction topics with
  | nil =>
    intro acc e h
    simpa [mergeMany] using h
  | cons t rest ih =>
    intro acc e h
    rw [List.foldl_cons]
    by_cases hk : keyOf t = k
    · have hl : acc.lookup (keyOf t) = some e := by
        rw [hk]
        exact lookup_some_of_filter_single acc k e h
      rw [dedupInsert_eq_map acc t (by rw [hl]; rfl)]
      have hf : (acc.map (updAt (keyOf t) t)).filter (fun p => p.1 = k) =
          [(k, mergeTopicInto e t)] := by
        rw [hk]
        exact filter_map_updAt_self acc k t e h
      rw [ih _ _ hf]
      rw [List.filter_cons]
      simp only [hk, decide_eq_true_eq, if_pos]
      rw [mergeMany_cons]
    · have hstep : (dedupInsert acc t).filter (fun p => p.1 = k) = [(k, e)] := by
        cases hl : acc.lookup (keyOf t) with
        | some u =>
          rw [dedupInsert_eq_map acc t (by rw [hl]; rfl)]
          rw [filter_map_updAt_other acc (keyOf t) t k hk]
          exact h
        | none =>
          rw [dedupInsert_eq_append acc t hl, List.filter_append, h]
          rw [List.filter_cons]
          simp [hk]
      rw [ih _ _ hstep]
      rw [List.filter_cons]
      simp [hk]

theorem dedupFold_filter_absent (k : String) (topics : List Topic) :
    ∀ (acc : List (String × Topic)),
    acc.filter (fun p => p.1 = k) = [] →
    (topics.foldl dedupInsert acc).filter (fun p => p.1 = k) =
      (match topics.filter (fun u => keyOf u = k) with
       | [] => []
       | t :: ts => [(k, mergeMany t ts)]) := by
  induction topics with
  | nil =>
    intro acc h
    simpa using h
  | cons t rest ih =>
    intro acc h
    rw [List.foldl_cons]
    by_cases hk : keyOf t = k
    · have hl : acc.lookup (keyOf t) = none := by
        rw [hk]
        exact lookup_none_of_filter_nil acc k h
      rw [dedupInsert_eq_append acc t hl]
      have hf : (acc ++ [(keyOf t, t)]).filter (fun p => p.1 = k) = [(k, t)] := by
        rw [List.filter_append, h, List.filter_cons]
        simp [hk]
      rw [dedupFold_filter_present k rest _ t hf]
      rw [List.filter_cons]
      simp only [hk, decide_eq_true_eq, if_pos]
    · have hstep : (dedupInsert acc t).filter (fun p => p.1 = k) = [] := by
        cases hl : acc.lookup (keyOf t) with
        | some u =>
          rw [dedupInsert_eq_map acc t (by rw [hl]; rfl)]
          rw [filter_map_updAt_other acc (keyOf t) t k hk]
          exact h
        | none =>
          rw [dedupInsert_eq_append acc t hl, List.filter_append, h]
          rw [List.filter_cons]
          simp [hk]
      rw [ih _ hstep]
      rw [List.filter_cons]
      simp [hk]

theorem dedupFold_count (topics : List Topic) :
    ∀ acc, (∀ t ∈ topics, t.article_count = t.articles.length) →
    (∀ p ∈ acc, p.2.article_count = p.2.articles.length) →
    ∀ p ∈ topics.foldl dedupInsert acc, p.2.article_count = p.2.articles.length := by
  induction topics with
  | nil => exact fun acc _ h => h
  | cons t rest ih =>
    intro acc hts hacc
    rw [List.foldl_cons]
    refine ih _ (fun u hu => hts u (List.mem_cons_of_mem t hu)) ?_
    cases hl : acc.lookup (keyOf t) with
    | some e =>
      rw [dedupInsert_eq_map acc t (by rw [hl]; rfl)]
      intro p hp
      rw [List.mem_map] at hp
      obtain ⟨q, hq, hqe⟩ := hp
      rw [← hqe]
      unfold updAt
      split
      · simp [mergeTopicInto]
      · exact hacc q hq
    | none =>
      rw [dedupInsert_eq_append acc t hl]
      intro p hp
      rcases List.mem_append.mp hp with hp | hp
      · exact hacc p hp
      · rw [List.mem_singleton] at hp
        rw [hp]
        exact hts t (List.mem_cons_self t rest)

theorem dedupByTitle_count (topics : List Topic)
    (hca : ∀ t ∈ topics, t.article_count = t.articles.length) :
    ∀ t ∈ dedupByTitle topics, t.article_count = t.articles.length := by
  intro t ht
  simp only [dedupByTitle, List.mem_map] at ht
  obtain ⟨p, hp, hpe⟩ := ht
  exact hpe ▸ dedupFold_count topics [] hca (by simp) p hp

theorem pickPrimary_cons_isSome (t : Topic) (ts : List Topic) :
    (pickPrimary (t :: ts)).isSome := by
  rw [pickPrimary]
  split
  · rfl
  · split <;> rfl

theorem dedupMergeTopics_cases (topics : List Topic) (mcs : Nat) :
    (dedupMergeTopics topics mcs = dedupByTitle topics ∧
      (((dedupByTitle topics).filter (fun u => max 2 mcs ≤ u.article_count)) = [] ∨
       ((dedupByTitle topics).filter (fun u => u.article_count < max 2 mcs)) = [])) ∨
    (∃ j primary,
      pickPrimary ((dedupByTitle topics).filter (fun u => max 2 mcs ≤ u.article_count)) =
        some (j, primary) ∧
      dedupMergeTopics topics mcs =
        ((dedupByTitle topics).filter (fun u => max 2 mcs ≤ u.article_count)).eraseIdx j ++
          [absorbSmall primary
            ((dedupByTitle topics).filter (fun u => u.article_count < max 2 mcs))]) := by
  unfold dedupMergeTopics
  by_cases hcond :
      (!((dedupByTitle topics).filter (fun u => max 2 mcs ≤ u.article_count)).isEmpty &&
       !((dedupByTitle topics).filter (fun u => u.article_count < max 2 mcs)).isEmpty) = true
  · rw [if_pos hcond]
    cases hp : pickPrimary ((dedupByTitle topics).filter
        (fun u => max 2 mcs ≤ u.article_count)) with
    | none =>
      exfalso
      have hne : ((dedupByTitle topics).filter (fun u => max 2 mcs ≤ u.article_count)) ≠ [] := by
        intro hnil
        rw [hnil] at hcond
        simp at hcond
      obtain ⟨a, as, hcons⟩ := List.exists_cons_of_ne_nil hne
      rw [hcons] at hp
      have := pickPrimary_cons_isSome a as
      rw [hp] at this
      exact Bool.false_ne_true this
    | some p =>
      obtain ⟨j, primary⟩ := p
      exact Or.inr ⟨j, primary, rfl, rfl⟩
  · rw [if_neg hcond]
    refine Or.inl ⟨rfl, ?_⟩
    rw [Bool.and_eq_true, not_and_or] at hcond
    rcases hcond with hc | hc
    · exact Or.inl (by simpa [List.isEmpty_iff] using hc)
    · exact Or.inr (by simpa [List.isEmpty_iff] using hc)

/-- Claim C10 (as stated) is false at the "hence" clause: with
min_cluster_size = 60 the bound is 60; the input has a topic of count 61, one
of count 100 with its stored article list truncated to 50 (as the engine
produces for clusters larger than 50), and a small topic of count 1.  The
small topic is merged into the largest, but the merged primary's recomputed
count is 51 < 60, so a returned topic sits below the bound although a topic
meeting the bound (61) is returned beside it. -/
theorem c10_counterexample :
    (∃ t ∈ dedupMergeTopics
        [⟨"AAA", "", 61, 10, List.replicate 50 ⟨"d", "D", none, "", "arxiv"⟩⟩,
         ⟨"BBB", "", 100, 20, List.replicate 50 ⟨"d", "D", none, "", "arxiv"⟩⟩,
         ⟨"CCC", "", 1, 5, [⟨"d", "D", none, "", "arxiv"⟩]⟩] 60,
      max 2 60 ≤ t.article_count) ∧
    (∃ t ∈ dedupMergeTopics
        [⟨"AAA", "", 61, 10, List.replicate 50 ⟨"d", "D", none, "", "arxiv"⟩⟩,
         ⟨"BBB", "", 100, 20, List.replicate 50 ⟨"d", "D", none, "", "arxiv"⟩⟩,
         ⟨"CCC", "", 1, 5, [⟨"d", "D", none, "", "arxiv"⟩]⟩] 60,
      t.article_count < max 2 60) := by
  constructor <;> decide

/-- Claim C10 as amended: (1) topics with the same cleaned title
(case-insensitively) are merged into a single topic per key — the output keys
are pairwise distinct, the merged topic carries the concatenation of the
stored article lists of its key class, its relevance is the maximum of the
merged relevances, and (when ≥ 2 topics were merged) its article_count is
recomputed as the length of the concatenated stored lists; (2) provided every
input topic's article_count equals the length of its stored article list —
which fails in the engine only for clusters larger than the 50-article
truncation — no returned topic is below the max(2, min_cluster_size) bound
whenever some returned topic meets it. -/
theorem c10_dedup_and_small_merge (topics : List Topic) (mcs : Nat) :
    ((dedupByTitle topics).map keyOf).Nodup ∧
    (∀ (k : String) (t : Topic) (ts : List Topic),
      topics.filter (fun u => keyOf u = k) = t :: ts →
      (dedupByTitle topics).filter (fun u => keyOf u = k) = [mergeMany t ts] ∧
      (mergeMany t ts).articles = ((t :: ts).map (fun u => u.articles)).flatten ∧
      (∀ u ∈ t :: ts, u.relevance ≤ (mergeMany t ts).relevance) ∧
      (∃ u ∈ t :: ts, (mergeMany t ts).relevance = u.relevance) ∧
      (ts ≠ [] → (mergeMany t ts).article_count = (mergeMany t ts).articles.length)) ∧
    ((∀ t ∈ topics, t.article_count = t.articles.length) →
      (∃ t ∈ dedupMergeTopics topics mcs, max 2 mcs ≤ t.article_count) →
      ∀ t ∈ dedupMergeTopics topics mcs, max 2 mcs ≤ t.article_count) := by
  have hkeys := dedupFold_keys topics [] (by simp)
  have hnd := dedupFold_nodup topics [] (by simp)
  refine ⟨?_, ?_, ?_⟩
  · unfold dedupByTitle
    rw [List.map_map]
    have he : (topics.foldl dedupInsert []).map (keyOf ∘ Prod.snd) =
        (topics.foldl dedupInsert []).map Prod.fst :=
      List.map_congr_left (fun p hp => (hkeys p hp).symm)
    rw [he]
    exact hnd
  · intro k t ts hfk
    have hmain := dedupFold_filter_absent k topics [] rfl
    rw [hfk] at hmain
    have hfilters : (dedupByTitle topics).filter (fun u => keyOf u = k) = [mergeMany t ts] := by
      unfold dedupByTitle
      rw [List.filter_map]
      have hcongr : (topics.foldl dedupInsert []).filter
            ((fun u => decide (keyOf u = k)) ∘ Prod.snd) =
          (topics.foldl dedupInsert []).filter (fun p => p.1 = k) := by
        apply List.filter_congr
        intro p hp
        simp only [Function.comp]
        rw [← hkeys p hp]
      rw [hcongr, hmain]
      rfl
    refine ⟨hfilters, ?_, ?_, ?_, ?_⟩
    · rw [mergeMany_articles]
      simp
    · intro u hu
      rw [mergeMany_rel]
      rcases List.mem_cons.mp hu with h | h
      · subst h
        exact foldl_max_init_le _ _
      · exact foldl_max_mem_le _ _ _ (List.mem_map_of_mem _ h)
    · rw [mergeMany_rel]
      rcases foldl_max_attained (ts.map (fun u => u.relevance)) t.relevance with h | h
      · exact ⟨t, List.mem_cons_self t ts, h⟩
      · rw [List.mem_map] at h
        obtain ⟨u, hu, hue⟩ := h
        exact ⟨u, List.mem_cons_of_mem t hu, hue.symm⟩
    · exact mergeMany_count t ts
  · intro hca hex t ht
    have hded := dedupByTitle_count topics hca
    rcases dedupMergeTopics_cases topics mcs with ⟨hout, hsl⟩ | ⟨j, primary, hpick, hout⟩
    · rw [hout] at ht hex
      rcases hsl with hlarge | hsmall
      · exfalso
        obtain ⟨u, hu, hub⟩ := hex
        have hin : u ∈ (dedupByTitle topics).filter (fun v => max 2 mcs ≤ v.article_count) :=
          List.mem_filter.mpr ⟨hu, by simpa using hub⟩
        rw [hlarge] at hin
        simp at hin
      · by_contra hlt
        have hin : t ∈ (dedupByTitle topics).filter (fun v => v.article_count < max 2 mcs) :=
          List.mem_filter.mpr ⟨ht, by simpa using Nat.lt_of_not_le hlt⟩
        rw [hsmall] at hin
        simp at hin
    · rw [hout] at ht
      rcases List.mem_append.mp ht with hmem | hmem
      · have hsub := List.eraseIdx_subset _ _ hmem
        simpa using (List.mem_filter.mp hsub).2
      · rw [List.mem_singleton] at hmem
        subst hmem
        have hprim := pickPrimary_mem _ _ _ hpick
        have hprimb : max 2 mcs ≤ primary.article_count := by
          simpa using (List.mem_filter.mp hprim).2
        have hprimc : primary.article_count = primary.articles.length :=
          hded primary (List.mem_filter.mp hprim).1
        show max 2 mcs ≤ (absorbSmall primary _).article_count
        simp only [absorbSmall, List.length_append]
        calc max 2 mcs ≤ primary.article_count := hprimb
          _ = primary.articles.length := hprimc
          _ ≤ primary.articles.length + _ := Nat.le_add_right _ _

/-- Witness for c10_dedup_and_small_merge: two topics whose titles clean to the
same key are merged into one, and the absorption bound holds on a singleton
list whose count matches its stored articles. -/
theorem c10_dedup_and_small_merge_witness :
    (dedupByTitle
        [⟨"Same Topic", "x", 1, 10, [⟨"1", "A", none, "", "arxiv"⟩]⟩,
         ⟨"same  topic", "y", 1, 20, [⟨"2", "B", none, "", "arxiv"⟩]⟩]).filter
      (fun u => keyOf u = "same topic") =
      [mergeMany ⟨"Same Topic", "x", 1, 10, [⟨"1", "A", none, "", "arxiv"⟩]⟩
        [⟨"same  topic", "y", 1, 20, [⟨"2", "B", none, "", "arxiv"⟩]⟩]] ∧
    max 2 2 ≤ (⟨"T", "x", 3, 5, List.replicate 3 ⟨"1", "A", none, "", "arxiv"⟩⟩ : Topic).article_count :=
  ⟨((c10_dedup_and_small_merge
      [⟨"Same Topic", "x", 1, 10, [⟨"1", "A", none, "", "arxiv"⟩]⟩,
       ⟨"same  topic", "y", 1, 20, [⟨"2", "B", none, "", "arxiv"⟩]⟩] 2).2.1
      "same topic"
      ⟨"Same Topic", "x", 1, 10, [⟨"1", "A", none, "", "arxiv"⟩]⟩
      [⟨"same  topic", "y", 1, 20, [⟨"2", "B", none, "", "arxiv"⟩]⟩] (by decide)).1,
   (c10_dedup_and_small_merge
      [⟨"T", "x", 3, 5, List.replicate 3 ⟨"1", "A", none, "", "arxiv"⟩⟩] 2).2.2
      (by decide) (by decide)
      ⟨"T", "x", 3, 5, List.replicate 3 ⟨"1", "A", none, "", "arxiv"⟩⟩ (by decide)⟩
